import Mathlib

/-!
Shallow embedding of the GitPet activity-scoring core (src/main.go):
the activity summarizer (`summarize`, `classifyCommit`), the evolution
classifier (`evolutionFor`) and the state transition performed by the
`feed` command (`evolve`, from the body of `runFeed`).

Go `int` values are modelled as `Int`; timestamps (`time.Time`) as `Int`
seconds, with `t.Before(u)` being strict `t < u`; strings of commit
messages as `List Char` so that Go's `strings.Contains` becomes an
executable substring test; per-event JSON payloads as an inductive
`Payload` whose `malformed` constructor models an undecodable payload
(the Go code skips the event's contribution in that case).
-/

namespace GitPet

/-- Aggregate counts over the 7-day window (Go struct `ActivitySummary`,
fields in source order). -/
structure ActivitySummary where
  commits : Int
  mergedPRs : Int
  reviews : Int
  docComments : Int
  refactorCommits : Int
  newRepos : Int
  largeCommits : Int
  thoughts : Int
  fixCommits : Int
  docCommits : Int
deriving DecidableEq

/-- Persisted pet state (Go struct `PetState`). -/
structure PetState where
  version : Int
  lastSync : String
  mood : Int
  kindness : Int
  logic : Int
  evolution : String
  activity : ActivitySummary
deriving DecidableEq

/-- Per-event payload, already decoded: `push` is Go `PushPayload`
(size hint plus commit messages), `pullRequest` is `PullRequestPayload`
(merged flag), `create` is `CreatePayload` (ref-type string);
`malformed` stands for a payload `json.Unmarshal` rejects. -/
inductive Payload where
  | push (size : Int) (commits : List (List Char))
  | pullRequest (merged : Bool)
  | create (refType : String)
  | malformed
deriving DecidableEq

/-- One activity occurrence (Go struct `Event`): type tag, creation
timestamp in seconds, payload. -/
structure Event where
  etype : String
  createdAt : Int
  payload : Payload
deriving DecidableEq

/-- Seven days in seconds: the trailing window of `summarize`
(`time.Now().Add(-7 * 24 * time.Hour)`). -/
def windowSeconds : Int := 7 * 24 * 60 * 60

/-- `leadMatch needle hay` is true when `hay` starts with `needle`. -/
def leadMatch : List Char → List Char → Bool
  | [], _ => true
  | _ :: _, [] => false
  | a :: as, b :: bs => a == b && leadMatch as bs

/-- `hasSub needle hay` is true when `needle` occurs contiguously in
`hay`: Go `strings.Contains hay needle`. -/
def hasSub (needle : List Char) : List Char → Bool
  | [] => leadMatch needle []
  | c :: rest => leadMatch needle (c :: rest) || hasSub needle rest

/-- Go `classifyCommit`: lower-case the message, then bump each of the
three commit-flavor counters whose keyword set matches (non-exclusive). -/
def classifyCommit (message : List Char) (summary : ActivitySummary) : ActivitySummary :=
  let lower := message.map Char.toLower
  let s1 :=
    if hasSub "fix".toList lower || hasSub "bug".toList lower then
      { summary with fixCommits := summary.fixCommits + 1 }
    else summary
  let s2 :=
    if hasSub "doc".toList lower || hasSub "readme".toList lower ||
        hasSub "comment".toList lower then
      { s1 with docCommits := s1.docCommits + 1 }
    else s1
  if hasSub "refactor".toList lower || hasSub "cleanup".toList lower ||
      hasSub "remove".toList lower || hasSub "delete".toList lower then
    { s2 with refactorCommits := s2.refactorCommits + 1 }
  else s2

/-- Body of the loop of Go `summarize` (src/main.go lines 623-657): skip
events strictly older than `now - 7d`, then dispatch on the type tag. -/
def processEvent (now : Int) (summary : ActivitySummary) (event : Event) : ActivitySummary :=
  if event.createdAt < now - windowSeconds then summary
  else if event.etype = "PushEvent" then
    match event.payload with
    | Payload.push size msgs =>
      let s1 := { summary with commits := summary.commits + (msgs.length : Int) }
      let s2 := if size ≥ 10 then { s1 with largeCommits := s1.largeCommits + 1 } else s1
      msgs.foldl (fun acc msg => classifyCommit msg acc) s2
    | _ => summary
  else if event.etype = "PullRequestEvent" then
    match event.payload with
    | Payload.pullRequest merged =>
      if merged then { summary with mergedPRs := summary.mergedPRs + 1 } else summary
    | _ => summary
  else if event.etype = "PullRequestReviewEvent" then
    { summary with reviews := summary.reviews + 1 }
  else if event.etype = "PullRequestReviewCommentEvent" then
    { summary with reviews := summary.reviews + 1, docComments := summary.docComments + 1 }
  else if event.etype = "IssueCommentEvent" then
    { summary with docComments := summary.docComments + 1 }
  else if event.etype = "CreateEvent" then
    match event.payload with
    | Payload.create refType =>
      if refType = "repository" then { summary with newRepos := summary.newRepos + 1 }
      else summary
    | _ => summary
  else summary

/-- The all-zero summary Go's `summarize` starts from (`ActivitySummary{}`). -/
def emptySummary : ActivitySummary :=
  { commits := 0, mergedPRs := 0, reviews := 0, docComments := 0, refactorCommits := 0,
    newRepos := 0, largeCommits := 0, thoughts := 0, fixCommits := 0, docCommits := 0 }

/-- Go `summarize` (src/main.go lines 620-659), with `time.Now()`
passed explicitly as `now`. -/
def summarize (now : Int) (events : List Event) : ActivitySummary :=
  events.foldl (processEvent now) emptySummary

/-- The activity total of `runFeed` (src/main.go line 141); the same sum
gates the Lonely override in `evolutionFor` (line 580). -/
def activityTotal (s : ActivitySummary) : Int :=
  s.commits + s.mergedPRs + s.reviews + s.docComments + s.refactorCommits + s.newRepos

/-- Go `evolutionFor` (src/main.go lines 579-603): Lonely when the
activity total is zero, otherwise the left-to-right strict-greater
chain over the four category scores starting from Pioneer. -/
def evolutionFor (summary : ActivitySummary) : String :=
  if activityTotal summary = 0 then "Lonely"
  else
    let pioneer := summary.commits + summary.newRepos * 2
    let guardian := summary.reviews * 2 + summary.mergedPRs * 2 + summary.fixCommits
    let bard := summary.docComments * 2 + summary.docCommits
    let voidScore := summary.refactorCommits * 2
    let best1 := "Pioneer"
    let score1 := pioneer
    let best2 := if guardian > score1 then "Guardian" else best1
    let score2 := if guardian > score1 then guardian else score1
    let best3 := if bard > score2 then "Bard" else best2
    let score3 := if bard > score2 then bard else score2
    if voidScore > score3 then "Void" else best3

/-- The state transition performed by Go `runFeed` (src/main.go lines
137-156) after the summary is computed: store the local-thoughts signal
in the summary, bump the two counters, move the mood, reclassify. The
current time string of `time.Now().UTC().Format` is passed as `nowStr`. -/
def evolve (state : PetState) (summary0 : ActivitySummary) (thoughts : Int)
    (nowStr : String) : PetState :=
  let summary := { summary0 with thoughts := thoughts }
  let logicNext := state.logic + summary.commits + summary.mergedPRs * 3
  let kindnessNext := state.kindness + summary.reviews * 2
  let mood1 :=
    if activityTotal summary = 0 then max 0 (state.mood - 1)
    else min 100 (state.mood + summary.commits + summary.mergedPRs * 5 +
      summary.reviews + summary.docComments)
  let mood2 := if thoughts > 0 then min 100 (mood1 + 1) else mood1
  { version := 1, lastSync := nowStr, mood := mood2, kindness := kindnessNext,
    logic := logicNext, evolution := evolutionFor summary, activity := summary }

/-- All ten summary fields are non-negative (always true of the output
of `summarize`; stated as a hypothesis where claims assume it). -/
def Nonneg (s : ActivitySummary) : Prop :=
  0 ≤ s.commits ∧ 0 ≤ s.mergedPRs ∧ 0 ≤ s.reviews ∧ 0 ≤ s.docComments ∧
  0 ≤ s.refactorCommits ∧ 0 ≤ s.newRepos ∧ 0 ≤ s.largeCommits ∧
  0 ≤ s.thoughts ∧ 0 ≤ s.fixCommits ∧ 0 ≤ s.docCommits

instance (s : ActivitySummary) : Decidable (Nonneg s) := by
  unfold Nonneg
  infer_instance

/-- The spec's wording of the evolution classification, written
independently of the code: the four scores, the category with the
greatest score wins, ties resolved toward the earlier category in the
order Pioneer, Guardian, Bard, Void. -/
def evolutionSpec (summary : ActivitySummary) : String :=
  let pioneer := summary.commits + summary.newRepos * 2
  let guardian := summary.reviews * 2 + summary.mergedPRs * 2 + summary.fixCommits
  let bard := summary.docComments * 2 + summary.docCommits
  let voidScore := summary.refactorCommits * 2
  let m := max (max pioneer guardian) (max bard voidScore)
  if pioneer = m then "Pioneer"
  else if guardian = m then "Guardian"
  else if bard = m then "Bard"
  else "Void"

/-- A pull-request-review event at time `t` (the CLI never decodes its
payload, so the payload constructor is irrelevant). -/
def reviewEvt (t : Int) : Event :=
  { etype := "PullRequestReviewEvent", createdAt := t, payload := Payload.malformed }

/-- A pull-request-review-comment event at time `t`. -/
def reviewCommentEvt (t : Int) : Event :=
  { etype := "PullRequestReviewCommentEvent", createdAt := t, payload := Payload.malformed }

/-- A create event at time `t` whose payload carries ref-type `rt`. -/
def createEvt (t : Int) (rt : String) : Event :=
  { etype := "CreateEvent", createdAt := t, payload := Payload.create rt }

/-- A push event at time `t` with three commit messages: one matching
only the fix keywords, one matching only the doc keywords, one matching
none. -/
def pushEvt (t : Int) : Event :=
  { etype := "PushEvent", createdAt := t,
    payload := Payload.push 1
      ["fix typo".toList, "update docs".toList, "hello world".toList] }

/-- The default state `loadState` returns on first run
(`PetState{Mood: 5, Evolution: "Lonely"}`). -/
def initialState : PetState :=
  { version := 0, lastSync := "", mood := 5, kindness := 0, logic := 0,
    evolution := "Lonely", activity := emptySummary }

/-- The classifier-counter invariant of summaries built by `summarize`:
each flavored-commit counter is non-negative and bounded by `commits`. -/
def ClassifierInv (s : ActivitySummary) : Prop :=
  0 ≤ s.fixCommits ∧ s.fixCommits ≤ s.commits ∧
  0 ≤ s.docCommits ∧ s.docCommits ≤ s.commits ∧
  0 ≤ s.refactorCommits ∧ s.refactorCommits ≤ s.commits

/-- An event strictly older than the window contributes nothing. -/
theorem processEvent_old (now : Int) (s : ActivitySummary) (e : Event)
    (h : e.createdAt < now - windowSeconds) : processEvent now s e = s := by
  simp [processEvent, h]

/-- Claim C1 (counterexample): with `now = 604800` the cutoff is `0`,
and a review event whose timestamp is exactly `now - 7d = 0` is NOT
excluded: its presence changes the output of `summarize`, refuting the
claim's boundary sentence. -/
theorem summarize_boundary_not_excluded :
    summarize 604800 [reviewEvt 0] ≠ summarize 604800 [] := by
  decide

/-- Claim C1 (amended): removing an event strictly older than
`now - 7 days` from anywhere in the sequence leaves the output of
`summarize` unchanged; at the boundary, an event exactly at `now - 7d`
is included in the aggregate, as is one at `now - 7d + 1s`. -/
theorem summarize_window_filter :
    (∀ (now : Int) (l1 l2 : List Event) (e : Event),
      e.createdAt < now - windowSeconds →
      summarize now (l1 ++ e :: l2) = summarize now (l1 ++ l2)) ∧
    summarize 604800 [reviewEvt 0] = { emptySummary with reviews := 1 } ∧
    summarize 604800 [reviewEvt 1] = { emptySummary with reviews := 1 } := by
  refine ⟨?_, by decide, by decide⟩
  intro now l1 l2 e h
  unfold summarize
  rw [List.foldl_append, List.foldl_append, List.foldl_cons,
    processEvent_old now _ e h]

/-- Claim C1 witness: the amended window property at a concrete input. -/
theorem summarize_window_filter_witness :
    summarize 604800 ([] ++ reviewEvt (-5) :: []) = summarize 604800 ([] ++ []) :=
  summarize_window_filter.1 604800 [] [] (reviewEvt (-5)) (by decide)

/-- Claim C2: evolving any previous state with the all-zero summary and
no local thoughts yields `mood = max 0 (mood - 1)` and evolution
"Lonely"; and whenever the activity total of the fed summary is zero,
the resulting evolution is "Lonely" regardless of the rest of the state
and summary. -/
theorem evolve_zero_summary :
    (∀ (st : PetState) (ns : String),
      (evolve st emptySummary 0 ns).mood = max 0 (st.mood - 1) ∧
      (evolve st emptySummary 0 ns).evolution = "Lonely") ∧
    (∀ (st : PetState) (s : ActivitySummary) (th : Int) (ns : String),
      activityTotal s = 0 → (evolve st s th ns).evolution = "Lonely") := by
  constructor
  · intro st ns
    constructor
    · simp [evolve, activityTotal, emptySummary]
    · simp [evolve, evolutionFor, activityTotal, emptySummary]
  · intro st s th ns h
    have h2 : activityTotal { s with thoughts := th } = 0 := by
      simpa [activityTotal] using h
    simp [evolve, evolutionFor, h2]

/-- Claim C2 witness: the Lonely override at a concrete state, summary
and thoughts value. -/
theorem evolve_zero_summary_witness :
    (evolve initialState { emptySummary with largeCommits := 4 } 2 "t").evolution
      = "Lonely" :=
  evolve_zero_summary.2 initialState { emptySummary with largeCommits := 4 } 2 "t"
    (by decide)

/-- One `evolve` step keeps the mood within `[0, 100]`. -/
theorem evolve_mood_step (st : PetState) (s : ActivitySummary) (th : Int)
    (ns : String) (h0 : 0 ≤ st.mood) (h100 : st.mood ≤ 100) (hn : Nonneg s) :
    0 ≤ (evolve st s th ns).mood ∧ (evolve st s th ns).mood ≤ 100 := by
  obtain ⟨hc, hm, hr, hd, _⟩ := hn
  simp only [evolve, activityTotal]
  split_ifs <;> constructor <;> simp <;> omega

/-- Claim C3: the mood bound `0 ≤ mood ≤ 100` is an invariant of the
`evolve` transition for summaries with non-negative fields and any
local-thoughts value, both for a single step and after folding any
sequence of such steps from an in-range state. -/
theorem evolve_mood_bounded :
    (∀ (st : PetState) (s : ActivitySummary) (th : Int) (ns : String),
      0 ≤ st.mood → st.mood ≤ 100 → Nonneg s →
      0 ≤ (evolve st s th ns).mood ∧ (evolve st s th ns).mood ≤ 100) ∧
    (∀ (st : PetState) (steps : List (ActivitySummary × Int × String)),
      0 ≤ st.mood → st.mood ≤ 100 → (∀ x ∈ steps, Nonneg x.1) →
      0 ≤ (steps.foldl (fun acc x => evolve acc x.1 x.2.1 x.2.2) st).mood ∧
      (steps.foldl (fun acc x => evolve acc x.1 x.2.1 x.2.2) st).mood ≤ 100) := by
  refine ⟨fun st s th ns h0 h100 hn => evolve_mood_step st s th ns h0 h100 hn, ?_⟩
  intro st steps
  induction steps generalizing st with
  | nil => intro h0 h100 _; exact ⟨h0, h100⟩
  | cons x rest ih =>
    intro h0 h100 hall
    have hx : Nonneg x.1 := hall x (List.mem_cons_self x rest)
    have hstep := evolve_mood_step st x.1 x.2.1 x.2.2 h0 h100 hx
    exact ih (evolve st x.1 x.2.1 x.2.2) hstep.1 hstep.2
      (fun y hy => hall y (List.mem_cons_of_mem x hy))

/-- Claim C3 witness: the mood bound at a concrete state and summary. -/
theorem evolve_mood_bounded_witness :
    0 ≤ (evolve initialState { emptySummary with commits := 2 } 1 "t").mood ∧
    (evolve initialState { emptySummary with commits := 2 } 1 "t").mood ≤ 100 :=
  evolve_mood_bounded.1 initialState { emptySummary with commits := 2 } 1 "t"
    (by decide) (by decide) (by decide)

/-- Claim C8: the kindness and logic counters never decrease across an
`evolve` step on a summary with non-negative fields; precisely, logic
grows by `commits + mergedPRs * 3` and kindness by `reviews * 2`. -/
theorem evolve_counters_monotone :
    ∀ (st : PetState) (s : ActivitySummary) (th : Int) (ns : String),
      Nonneg s →
      st.kindness ≤ (evolve st s th ns).kindness ∧
      st.logic ≤ (evolve st s th ns).logic ∧
      (evolve st s th ns).logic = st.logic + s.commits + s.mergedPRs * 3 ∧
      (evolve st s th ns).kindness = st.kindness + s.reviews * 2 := by
  intro st s th ns hn
  obtain ⟨hc, hm, hr, _⟩ := hn
  refine ⟨?_, ?_, ?_, ?_⟩ <;> simp [evolve] <;> omega

/-- Claim C8 witness: counter monotonicity at a concrete state and
summary. -/
theorem evolve_counters_monotone_witness :
    initialState.kindness ≤
      (evolve initialState { emptySummary with reviews := 2 } 0 "t").kindness ∧
    initialState.logic ≤
      (evolve initialState { emptySummary with reviews := 2 } 0 "t").logic ∧
    (evolve initialState { emptySummary with reviews := 2 } 0 "t").logic
      = initialState.logic + ({ emptySummary with reviews := 2 } : ActivitySummary).commits
        + ({ emptySummary with reviews := 2 } : ActivitySummary).mergedPRs * 3 ∧
    (evolve initialState { emptySummary with reviews := 2 } 0 "t").kindness
      = initialState.kindness
        + ({ emptySummary with reviews := 2 } : ActivitySummary).reviews * 2 :=
  evolve_counters_monotone initialState { emptySummary with reviews := 2 } 0 "t"
    (by decide)

/-- Claim C4: inside the window, a pull-request-review event increments
only `reviews` (every other field, `docComments` included, is
unchanged), while a pull-request-review-comment event increments both
`reviews` and `docComments` by one. -/
theorem summarize_review_events :
    ∀ (now : Int) (events : List Event) (e : Event),
      ¬ e.createdAt < now - windowSeconds →
      ((e.etype = "PullRequestReviewEvent" →
        summarize now (events ++ [e]) =
          { summarize now events with
            reviews := (summarize now events).reviews + 1 }) ∧
      (e.etype = "PullRequestReviewCommentEvent" →
        summarize now (events ++ [e]) =
          { summarize now events with
            reviews := (summarize now events).reviews + 1,
            docComments := (summarize now events).docComments + 1 })) := by
  intro now events e h
  constructor <;> intro he <;>
    (unfold summarize; rw [List.foldl_append]; simp [processEvent, h, he])

/-- Claim C4 witness: both review-event shapes at concrete inputs. -/
theorem summarize_review_events_witness :
    (summarize 604800 ([] ++ [reviewEvt 604800]) =
      { summarize 604800 [] with reviews := (summarize 604800 []).reviews + 1 }) ∧
    (summarize 604800 ([] ++ [reviewCommentEvt 604800]) =
      { summarize 604800 [] with
        reviews := (summarize 604800 []).reviews + 1,
        docComments := (summarize 604800 []).docComments + 1 }) :=
  ⟨(summarize_review_events 604800 [] (reviewEvt 604800) (by decide)).1 rfl,
    (summarize_review_events 604800 [] (reviewCommentEvt 604800) (by decide)).2 rfl⟩

/-- Claim C5: inside the window, a create event increments `newRepos`
exactly when its payload's ref-type equals "repository"; with any other
ref-type the summary is unchanged. -/
theorem summarize_create_events :
    ∀ (now : Int) (events : List Event) (e : Event) (rt : String),
      ¬ e.createdAt < now - windowSeconds →
      e.etype = "CreateEvent" → e.payload = Payload.create rt →
      summarize now (events ++ [e]) =
        (if rt = "repository" then
          { summarize now events with
            newRepos := (summarize now events).newRepos + 1 }
        else summarize now events) := by
  intro now events e rt h he hp
  unfold summarize
  rw [List.foldl_append]
  simp [processEvent, h, he, hp]

/-- Claim C5 witness: a repository-create and a branch-create event at
concrete inputs. -/
theorem summarize_create_events_witness :
    (summarize 604800 ([] ++ [createEvt 604800 "repository"]) =
      (if ("repository" : String) = "repository" then
        { summarize 604800 [] with newRepos := (summarize 604800 []).newRepos + 1 }
      else summarize 604800 [])) ∧
    (summarize 604800 ([] ++ [createEvt 604800 "branch"]) =
      (if ("branch" : String) = "repository" then
        { summarize 604800 [] with newRepos := (summarize 604800 []).newRepos + 1 }
      else summarize 604800 [])) :=
  ⟨summarize_create_events 604800 [] (createEvt 604800 "repository") "repository"
      (by decide) rfl rfl,
    summarize_create_events 604800 [] (createEvt 604800 "branch") "branch"
      (by decide) rfl rfl⟩

/-- Claim C6: whenever the summary has non-negative fields and a
positive activity total, the code's strict-greater chain agrees with the
spec's reading: the category with the greatest score wins and ties
resolve toward the earlier category in the order Pioneer, Guardian,
Bard, Void. -/
theorem evolutionFor_matches_spec :
    ∀ s : ActivitySummary, Nonneg s → 0 < activityTotal s →
      evolutionFor s = evolutionSpec s := by
  intro s _ ht
  have h0 : ¬ activityTotal s = 0 := by omega
  simp only [evolutionFor, evolutionSpec, if_neg h0]
  split_ifs <;> first | rfl | (exfalso; omega)

/-- Claim C6 witness: the tie-break agreement at a concrete summary. -/
theorem evolutionFor_matches_spec_witness :
    evolutionFor { emptySummary with reviews := 3, mergedPRs := 2, fixCommits := 1 }
      = evolutionSpec { emptySummary with reviews := 3, mergedPRs := 2, fixCommits := 1 } :=
  evolutionFor_matches_spec
    { emptySummary with reviews := 3, mergedPRs := 2, fixCommits := 1 }
    (by decide) (by decide)

/-- Claim C7: the classifier is a case-insensitive, non-exclusive
substring match; a push inside the window with three messages — one
matching only the fix keywords, one containing "docs", one with no
keyword — yields `commits = 3`, `fixCommits = 1`, `docCommits = 1`,
`refactorCommits = 0`; and one mixed-case message matching several
keyword sets bumps each matching counter. -/
theorem classify_scenario :
    (summarize 604800 [pushEvt 604800]).commits = 3 ∧
    (summarize 604800 [pushEvt 604800]).fixCommits = 1 ∧
    (summarize 604800 [pushEvt 604800]).docCommits = 1 ∧
    (summarize 604800 [pushEvt 604800]).refactorCommits = 0 ∧
    classifyCommit "Refactor the DOCS to FIX parsing".toList emptySummary
      = { emptySummary with fixCommits := 1, docCommits := 1, refactorCommits := 1 } := by
  refine ⟨by decide, by decide, by decide, by decide, by decide⟩

/-- Claim C10: the evolution label never depends on `largeCommits` or
`thoughts`: two summaries equal on the eight fields the classifier
reads get the same label. -/
theorem evolutionFor_ignores_large_and_thoughts :
    ∀ s1 s2 : ActivitySummary,
      s1.commits = s2.commits → s1.mergedPRs = s2.mergedPRs →
      s1.reviews = s2.reviews → s1.docComments = s2.docComments →
      s1.refactorCommits = s2.refactorCommits → s1.newRepos = s2.newRepos →
      s1.fixCommits = s2.fixCommits → s1.docCommits = s2.docCommits →
      evolutionFor s1 = evolutionFor s2 := by
  intro s1 s2 h1 h2 h3 h4 h5 h6 h7 h8
  simp only [evolutionFor, activityTotal, h1, h2, h3, h4, h5, h6, h7, h8]

/-- Claim C10 witness: two concrete summaries differing only in
`largeCommits` and `thoughts` share one label. -/
theorem evolutionFor_ignores_large_and_thoughts_witness :
    evolutionFor { emptySummary with commits := 1, largeCommits := 7, thoughts := 3 }
      = evolutionFor { emptySummary with commits := 1 } :=
  evolutionFor_ignores_large_and_thoughts
    { emptySummary with commits := 1, largeCommits := 7, thoughts := 3 }
    { emptySummary with commits := 1 } rfl rfl rfl rfl rfl rfl rfl rfl

/-- `classifyCommit` leaves `commits` alone and bumps each flavored
counter by at most one. -/
theorem classifyCommit_bounds (msg : List Char) (s : ActivitySummary) :
    (classifyCommit msg s).commits = s.commits ∧
    s.fixCommits ≤ (classifyCommit msg s).fixCommits ∧
    (classifyCommit msg s).fixCommits ≤ s.fixCommits + 1 ∧
    s.docCommits ≤ (classifyCommit msg s).docCommits ∧
    (classifyCommit msg s).docCommits ≤ s.docCommits + 1 ∧
    s.refactorCommits ≤ (classifyCommit msg s).refactorCommits ∧
    (classifyCommit msg s).refactorCommits ≤ s.refactorCommits + 1 := by
  simp only [classifyCommit]
  split_ifs <;> refine ⟨rfl, ?_, ?_, ?_, ?_, ?_, ?_⟩ <;> simp

/-- Folding `classifyCommit` over a list of messages leaves `commits`
alone and bumps each flavored counter by at most the number of
messages. -/
theorem foldl_classify_bounds (msgs : List (List Char)) (s : ActivitySummary) :
    (msgs.foldl (fun acc msg => classifyCommit msg acc) s).commits = s.commits ∧
    s.fixCommits ≤ (msgs.foldl (fun acc msg => classifyCommit msg acc) s).fixCommits ∧
    (msgs.foldl (fun acc msg => classifyCommit msg acc) s).fixCommits
      ≤ s.fixCommits + (msgs.length : Int) ∧
    s.docCommits ≤ (msgs.foldl (fun acc msg => classifyCommit msg acc) s).docCommits ∧
    (msgs.foldl (fun acc msg => classifyCommit msg acc) s).docCommits
      ≤ s.docCommits + (msgs.length : Int) ∧
    s.refactorCommits
      ≤ (msgs.foldl (fun acc msg => classifyCommit msg acc) s).refactorCommits ∧
    (msgs.foldl (fun acc msg => classifyCommit msg acc) s).refactorCommits
      ≤ s.refactorCommits + (msgs.length : Int) := by
  induction msgs generalizing s with
  | nil => simp
  | cons m rest ih =>
    obtain ⟨c1, c2, c3, c4, c5, c6, c7⟩ := classifyCommit_bounds m s
    obtain ⟨r1, r2, r3, r4, r5, r6, r7⟩ := ih (classifyCommit m s)
    simp only [List.foldl_cons, List.length_cons]
    refine ⟨?_, ?_, ?_, ?_, ?_, ?_, ?_⟩ <;> push_cast <;> omega

/-- Starting from a seed whose flavored counters leave room for one
more bump per message, the classifier fold lands inside the invariant. -/
theorem classifierInv_foldl (msgs : List (List Char)) (t : ActivitySummary)
    (hf : 0 ≤ t.fixCommits) (hf2 : t.fixCommits + (msgs.length : Int) ≤ t.commits)
    (hd : 0 ≤ t.docCommits) (hd2 : t.docCommits + (msgs.length : Int) ≤ t.commits)
    (hr : 0 ≤ t.refactorCommits)
    (hr2 : t.refactorCommits + (msgs.length : Int) ≤ t.commits) :
    ClassifierInv (msgs.foldl (fun acc msg => classifyCommit msg acc) t) := by
  obtain ⟨b1, b2, b3, b4, b5, b6, b7⟩ := foldl_classify_bounds msgs t
  exact ⟨by omega, by omega, by omega, by omega, by omega, by omega⟩

/-- Each event step of `summarize` preserves the classifier invariant. -/
theorem processEvent_classifierInv (now : Int) (e : Event) (s : ActivitySummary)
    (h : ClassifierInv s) : ClassifierInv (processEvent now s e) := by
  obtain ⟨h1, h2, h3, h4, h5, h6⟩ := h
  rcases hp : e.payload with ⟨size, msgs⟩ | merged | rt | _ <;>
    simp only [processEvent, hp] <;> split_ifs <;>
      first
        | exact ⟨h1, h2, h3, h4, h5, h6⟩
        | (apply classifierInv_foldl <;> simp <;> omega)

/-- Every summary `summarize` produces satisfies the classifier
invariant. -/
theorem summarize_classifierInv (now : Int) (events : List Event) :
    ClassifierInv (summarize now events) := by
  have key : ∀ (l : List Event) (s : ActivitySummary),
      ClassifierInv s → ClassifierInv (l.foldl (processEvent now) s) := by
    intro l
    induction l with
    | nil => intro s h; exact h
    | cons e rest ih =>
      intro s h
      exact ih (processEvent now s e) (processEvent_classifierInv now e s h)
  exact key events emptySummary
    ⟨le_refl 0, le_refl 0, le_refl 0, le_refl 0, le_refl 0, le_refl 0⟩

/-- Claim C9: in every summary built by `summarize`, each flavored
commit counter is bounded by `commits`; with `commits = 0` all three
counters are zero. -/
theorem summarize_classifier_le_commits (now : Int) (events : List Event) :
    (summarize now events).fixCommits ≤ (summarize now events).commits ∧
    (summarize now events).docCommits ≤ (summarize now events).commits ∧
    (summarize now events).refactorCommits ≤ (summarize now events).commits ∧
    ((summarize now events).commits = 0 →
      (summarize now events).fixCommits = 0 ∧
      (summarize now events).docCommits = 0 ∧
      (summarize now events).refactorCommits = 0) := by
  obtain ⟨a1, a2, a3, a4, a5, a6⟩ := summarize_classifierInv now events
  exact ⟨a2, a4, a6, fun h => ⟨by omega, by omega, by omega⟩⟩

/-- Claim C9 witness: the bounds at a concrete event list, with the
zero-commits consequence discharged on the empty list. -/
theorem summarize_classifier_le_commits_witness :
    ((summarize 604800 [reviewEvt 604800]).fixCommits
      ≤ (summarize 604800 [reviewEvt 604800]).commits) ∧
    ((summarize 604800 [reviewEvt 604800]).fixCommits = 0 ∧
      (summarize 604800 [reviewEvt 604800]).docCommits = 0 ∧
      (summarize 604800 [reviewEvt 604800]).refactorCommits = 0) :=
  ⟨(summarize_classifier_le_commits 604800 [reviewEvt 604800]).1,
    (summarize_classifier_le_commits 604800 [reviewEvt 604800]).2.2.2 (by decide)⟩

end GitPet
